import Mathlib

/-
Verification of the connection / pagination / batching core of the
spotlysis repository, embedded shallowly from
`src/classes/SpotifyConnection.ts` (and, for the `Paged` container whose
source file is not among the provided sources, from the specification).

Modelling conventions
* Promises are modelled by their eventual settled state: `JsResult α` is
  either `.resolved a` or `.rejected e` for a JavaScript error value `e`.
* `axios` with its default `validateStatus` resolves exactly when the HTTP
  status is in the 2xx range, and otherwise rejects with an `AxiosError`
  carrying `response.status` (constructor `JsError.axios`).
* The remote service and the token-refresh proxy are oracles passed in as
  functions: an API environment maps the bearer token presented to the
  status/payload the request yields, and a refresh environment maps the
  refresh token to the status and `access_token` of `GET /api/refresh`.
* Network requests and callback invocations are recorded in a trace
  (`List Ev`) so that claims about "how many requests / callback firings
  happen" are statements about the trace.
-/

/-- JavaScript error values thrown by the code under study:
`JsError.axios s` is an `AxiosError` whose `response.status` is `s`
(`isAxiosError` true); `JsError.thrown s` is a bare `throw status`
(lines 159, 203 of SpotifyConnection.ts); `JsError.thrownResponse s` is the
`throw response` of `tryRefresh` (line 133); `JsError.exhausted` is the
failure the spec prescribes for `fetchNext` on an exhausted `Paged`. -/
inductive JsError : Type where
  | axios (status : Nat)
  | thrown (status : Nat)
  | thrownResponse (status : Nat)
  | exhausted
deriving DecidableEq, Repr

/-- Settled state of a JavaScript promise. -/
inductive JsResult (α : Type) : Type where
  | resolved (value : α)
  | rejected (error : JsError)
deriving DecidableEq, Repr

/-- Observable events of a run: an authenticated API request carrying the
bearer token it presented and the status it got; a request to the refresh
endpoint carrying the refresh token sent as query parameter and the status;
an invocation of the `onAccessTokenChange` callback; an invocation of the
`onGettingUserProfile` callback. -/
inductive Ev : Type where
  | request (token : String) (status : Nat)
  | refreshRequest (refreshToken : String) (status : Nat)
  | tokenChange (newToken : String)
  | gotProfile
deriving DecidableEq, Repr

/-- The `{data, status}` pair returned by `fetch` (SpotifyConnection.ts
lines 13-16 and 110-114). -/
structure FetchResult (T : Type) : Type where
  data : T
  status : Nat
deriving DecidableEq, Repr

/-- The mutable state of a `SpotifyConnection`: the private `_accessToken`
field and the `readonly refreshToken` field (lines 59-65). -/
structure Conn : Type where
  accessToken : String
  refreshToken : String
deriving DecidableEq, Repr

/-- axios default `validateStatus`: resolve exactly on a 2xx status. -/
def axiosOk (status : Nat) : Bool := 200 ≤ status && status < 300

/-- The test `error.isAxiosError && error.response.status === 401` of `get`
(line 142); `&&` short-circuits, so a non-axios error never reads
`response.status`. -/
def isAxios401 : JsError → Bool
  | JsError.axios s => s == 401
  | _ => false

def JsResult.isRejected {α : Type} : JsResult α → Bool
  | JsResult.rejected _ => true
  | JsResult.resolved _ => false

def JsResult.map {α β : Type} (f : α → β) : JsResult α → JsResult β
  | JsResult.resolved a => JsResult.resolved (f a)
  | JsResult.rejected e => JsResult.rejected e

/-- Model of `fetch` (lines 110-114) for one fixed endpoint and config: it issues the
HTTP GET with header `Authorization: Bearer <accessToken>`; `env tok` is the
status and payload the request yields when presenting token `tok`. axios
resolves for 2xx and rejects with an `AxiosError` otherwise; `fetch` does not
touch the connection state. -/
def fetchM {T : Type} (env : String → Nat × T) (tok : String) :
    JsResult (FetchResult T) × List Ev :=
  let status := (env tok).1
  let data := (env tok).2
  if axiosOk status then
    (JsResult.resolved ⟨data, status⟩, [Ev.request tok status])
  else
    (JsResult.rejected (JsError.axios status), [Ev.request tok status])

/-- Model of `tryRefresh` (lines 123-136): `GET /api/refresh?refresh_token=<token>`;
the `await axios(...)` rethrows the axios rejection for a non-2xx status;
line 133 throws the response for a 2xx status other than 200; on 200 the
stored `_accessToken` is replaced by `response.data.access_token`, which is
also returned. `renv` maps the refresh token sent to the endpoint's status
and `access_token` payload. -/
def tryRefresh (renv : String → Nat × String) (st : Conn) :
    JsResult String × Conn × List Ev :=
  let status := (renv st.refreshToken).1
  let newTok := (renv st.refreshToken).2
  let ev := [Ev.refreshRequest st.refreshToken status]
  if axiosOk status then
    if status = 200 then
      (JsResult.resolved newTok, { st with accessToken := newTok }, ev)
    else
      (JsResult.rejected (JsError.thrownResponse status), st, ev)
  else
    (JsResult.rejected (JsError.axios status), st, ev)

/-- The body of `get` (lines 138-149), parametrised by whether the promise
produced by `this.fetch(...)` is awaited inside the `try`. The source reads
`return this.fetch(endpoint, {...config, method: 'get'})` with no `await`:
calling the async method never throws synchronously, so the `try` block
finishes normally with the promise as its value and a later rejection of
that promise bypasses the `catch` entirely (`awaited = false`). The `catch`
block the source contains — refresh once on an axios 401, fire
`onAccessTokenChange` with the refreshed token, retry the fetch once with
the new token, and rethrow anything else — is reached only in the
`awaited = true` variant. -/
def getWith {T : Type} (awaited : Bool) (env : String → Nat × T)
    (renv : String → Nat × String) (st : Conn) :
    JsResult (FetchResult T) × Conn × List Ev :=
  let first := fetchM env st.accessToken
  if awaited = false then
    (first.1, st, first.2)
  else
    match first.1 with
    | JsResult.resolved r => (JsResult.resolved r, st, first.2)
    | JsResult.rejected error =>
      if isAxios401 error then
        match tryRefresh renv st with
        | (JsResult.resolved newTok, st2, ev2) =>
          let retry := fetchM env st2.accessToken
          (retry.1, st2, first.2 ++ ev2 ++ [Ev.tokenChange newTok] ++ retry.2)
        | (JsResult.rejected e, st2, ev2) =>
          (JsResult.rejected e, st2, first.2 ++ ev2)
      else
        (JsResult.rejected error, st, first.2)

/-- Model of `get` as the source executes: the un-awaited variant of `getWith`. -/
def getM {T : Type} (env : String → Nat × T) (renv : String → Nat × String)
    (st : Conn) : JsResult (FetchResult T) × Conn × List Ev :=
  getWith false env renv st

/-- Model of `fetchUserProfile` (lines 157-161): `await this.get('/me')`; a rejection
of `get` is rethrown by the `await`; a resolved result with status other
than 200 is thrown as a bare status (line 159). `env` gives the status and
profile payload of `GET /me` per bearer token. -/
def fetchUserProfile {P : Type} (env : String → Nat × P)
    (renv : String → Nat × String) (st : Conn) :
    JsResult P × Conn × List Ev :=
  match getM env renv st with
  | (JsResult.rejected e, st2, ev) => (JsResult.rejected e, st2, ev)
  | (JsResult.resolved r, st2, ev) =>
    if r.status = 200 then (JsResult.resolved r.data, st2, ev)
    else (JsResult.rejected (JsError.thrown r.status), st2, ev)

/-- Model of `establish` (lines 76-87): construct the connection with the given
tokens, run the verification fetch of the user profile and — only if it
resolves — fire `onGettingUserProfile` (recorded as `Ev.gotProfile`) and
resolve with the connection; its rejection rejects `establish`. -/
def establish {P : Type} (env : String → Nat × P)
    (renv : String → Nat × String) (accessToken refreshToken : String) :
    JsResult Conn × List Ev :=
  let st : Conn := ⟨accessToken, refreshToken⟩
  match fetchUserProfile env renv st with
  | (JsResult.rejected e, _, ev) => (JsResult.rejected e, ev)
  | (JsResult.resolved _, st2, ev) =>
    (JsResult.resolved st2, ev ++ [Ev.gotProfile])

/-- Model of `reestablish` (lines 101-108): construct the connection with an empty
access token, `await connection.tryRefresh()` (its rejection rejects
`reestablish`; note no call of `onAccessTokenChange` here), then the
verification fetch and `onGettingUserProfile` as in `establish`. -/
def reestablish {P : Type} (env : String → Nat × P)
    (renv : String → Nat × String) (refreshToken : String) :
    JsResult Conn × List Ev :=
  let st : Conn := ⟨"", refreshToken⟩
  match tryRefresh renv st with
  | (JsResult.rejected e, _, ev) => (JsResult.rejected e, ev)
  | (JsResult.resolved _, st2, ev1) =>
    match fetchUserProfile env renv st2 with
    | (JsResult.rejected e, _, ev2) => (JsResult.rejected e, ev1 ++ ev2)
    | (JsResult.resolved _, st3, ev2) =>
      (JsResult.resolved st3, ev1 ++ ev2 ++ [Ev.gotProfile])

/-- Number of refresh-endpoint requests in a trace. -/
def refreshCount (tr : List Ev) : Nat :=
  tr.countP (fun e => match e with
    | Ev.refreshRequest _ _ => true
    | _ => false)

/-- Number of `onAccessTokenChange` invocations in a trace. -/
def tokenChangeCount (tr : List Ev) : Nat :=
  tr.countP (fun e => match e with
    | Ev.tokenChange _ => true
    | _ => false)

/-- Model of `Math.ceil(a / b)` on natural inputs with `b ≥ 1`. At `a = 0, b = 0`
(the only division the source performs with a zero divisor, namely
`Math.ceil(0 / Math.ceil(0 / 100))` for an empty ID list) JavaScript yields
`NaN`; the model yields `0`, and neither value is ever consumed because the
partition loop's guard `0 < ids.length` already fails (see `chunkBy`). -/
def ceilDivNat (a b : Nat) : Nat := (a + b - 1) / b

/-- The loop `for (let i = 0; i < ids.length; i += bucketSize)
{ buckets.push(ids.slice(i, i + bucketSize)) }` (lines 218-220), written
with the remaining suffix of the list in place of the index `i`. The fuel
argument only forces termination: one iteration consumes at least one
element whenever `b ≥ 1`, so `l.length` fuel is enough (`chunkBy`). When
`l = []` the guard fails at once and no bucket is pushed — also with the
`NaN` step of the empty-input case. `b = 0` together with `l ≠ []` never
arises from the source's single call site (`bucketSize_pos`). -/
def chunkByAux {α : Type} : Nat → Nat → List α → List (List α)
  | 0, _, _ => []
  | _ + 1, _, [] => []
  | fuel + 1, b, x :: xs =>
    if b = 0 then []
    else (x :: xs).take b :: chunkByAux fuel b ((x :: xs).drop b)

/-- Partition a list into contiguous chunks of size `b` (last chunk may be
shorter), as the bucket-splitting loop of `fetchAudioFeatures` does. -/
def chunkBy {α : Type} (b : Nat) (l : List α) : List (List α) :=
  chunkByAux l.length b l

/-- Model of the `bucketSize` of `fetchAudioFeatures` (line 214):
`Math.ceil(ids.length / Math.ceil(ids.length / 100))`. -/
def bucketSizeOf (n : Nat) : Nat := ceilDivNat n (ceilDivNat n 100)

/-- The `buckets` array of `fetchAudioFeatures` (lines 215-220). -/
def bucketsOf (ids : List String) : List (List String) :=
  chunkBy (bucketSizeOf ids.length) ids

/-- One step of `Promise.all`: combine the head promise's settled state
with the combined state of the remaining promises. -/
def promiseAllCons {α : Type} : JsResult α → JsResult (List α) → JsResult (List α)
  | JsResult.resolved a, JsResult.resolved as => JsResult.resolved (a :: as)
  | JsResult.rejected e, _ => JsResult.rejected e
  | JsResult.resolved _, JsResult.rejected e => JsResult.rejected e

/-- Model of `Promise.all`: resolves with the results in original index order when
every promise resolves, rejects when any of them rejects. JavaScript
rejects with the temporally first rejection; the claims below only depend
on the fact of rejection, and the model deterministically surfaces the
first rejection in index order. -/
def promiseAll {α : Type} : List (JsResult α) → JsResult (List α)
  | [] => JsResult.resolved []
  | p :: ps => promiseAllCons p (promiseAll ps)

/-- Model of `fetchAudioFeaturesOfBucket` (lines 198-205): one `get` on
`/audio-features` with the chunk's IDs joined into the `ids` query
parameter; a non-200 status of a resolved response is thrown (line 203),
and otherwise the `audio_features` array of the payload is returned. `benv`
maps the bearer token and the chunk's ID list to the status and the
`audio_features` payload of that request. -/
def fetchAudioFeaturesOfBucket {AF : Type}
    (benv : String → List String → Nat × List AF)
    (renv : String → Nat × String) (st : Conn) (ids : List String) :
    JsResult (List AF) × Conn × List Ev :=
  match getM (fun tok => benv tok ids) renv st with
  | (JsResult.rejected e, st2, ev) => (JsResult.rejected e, st2, ev)
  | (JsResult.resolved r, st2, ev) =>
    if r.status = 200 then (JsResult.resolved r.data, st2, ev)
    else (JsResult.rejected (JsError.thrown r.status), st2, ev)

/-- Model of `fetchAudioFeatures` (lines 213-223): split the IDs into buckets, fire
one bucket request per bucket concurrently (all of them start from the same
connection state), `Promise.all` the results and `.flat()` the per-bucket
`audio_features` arrays in bucket-index order. The trace concatenates the
bucket traces in bucket order. -/
def fetchAudioFeatures {AF : Type}
    (benv : String → List String → Nat × List AF)
    (renv : String → Nat × String) (st : Conn) (ids : List String) :
    JsResult (List AF) × List Ev :=
  let buckets := bucketsOf ids
  let results := buckets.map (fun bucket =>
    fetchAudioFeaturesOfBucket benv renv st bucket)
  ((promiseAll (results.map (fun r => r.1))).map List.flatten,
   (results.map (fun r => r.2.2)).flatten)

/-- Concurrent completion of the bucket requests, modelled explicitly: the
requests of `rs` settle in the order given by the index list `sched`, and
each settled result is recorded together with its original bucket index, as
the JavaScript runtime does inside `Promise.all`. -/
def settleOrder {α : Type} (sched : List Nat) (rs : List α) : List (Nat × α) :=
  sched.filterMap (fun i => (rs.get? i).map (fun r => (i, r)))

/-- Assembly of `Promise.all`'s output array: slot `i` of the output holds
the result recorded for original index `i`, regardless of the position at
which it settled; the per-bucket arrays are then flattened in index order
exactly as `.flat()` does. -/
def assembleByIndex {β : Type} (n : Nat) (settled : List (Nat × List β)) :
    List β :=
  ((List.range n).map (fun i =>
    ((settled.find? (fun x => x.1 == i)).map (fun x => x.2)).getD [])).flatten

/-- Modelled from the spec: `src/classes/Paged.ts` is not among the provided
sources (only its importers are), so the `Paged` container is taken from
§4.3 and §3 of the specification. The page payload `{items, total}` a
`PageFetcher` returns. -/
structure SpotifyPage (T : Type) : Type where
  items : List T
  total : Nat
deriving DecidableEq, Repr

/-- Modelled from the spec: the state of a `Paged` instance, §3 —
`{pageSize > 0, fetchedItems (append-only), total (unknown until the first
successful fetch), nextOffset}`. -/
structure Paged (T : Type) : Type where
  pageSize : Nat
  fetchedItems : List T
  total : Option Nat
  nextOffset : Nat
deriving DecidableEq, Repr

/-- Modelled from the spec: `Paged.create(pageSize, fetcher)` constructs the
container in the nothing-fetched-yet state, issuing no request, §4.3. -/
def Paged.create {T : Type} (pageSize : Nat) : Paged T :=
  ⟨pageSize, [], none, 0⟩

/-- Modelled from the spec: `fetchNext()`, §4.3 — fail fast if `nextOffset`
already equals the known `total`; otherwise issue exactly one page request
at `(limit = pageSize, offset = nextOffset)`; propagate its failure
unchanged with no state mutation; on success append the returned items,
advance `nextOffset` by the number of items returned, record `total`, and
return the newly fetched items. -/
def Paged.fetchNext {T : Type} (fetcher : Nat → Nat → JsResult (SpotifyPage T))
    (p : Paged T) : JsResult (List T) × Paged T :=
  if p.total = some p.nextOffset then
    (JsResult.rejected JsError.exhausted, p)
  else
    match fetcher p.pageSize p.nextOffset with
    | JsResult.rejected e => (JsResult.rejected e, p)
    | JsResult.resolved page =>
      (JsResult.resolved page.items,
       { p with
           fetchedItems := p.fetchedItems ++ page.items,
           nextOffset := p.nextOffset + page.items.length,
           total := some page.total })

/-- State of a `Paged` instance after `n` successive `fetchNext` calls. -/
def Paged.runN {T : Type} (fetcher : Nat → Nat → JsResult (SpotifyPage T))
    (p : Paged T) : Nat → Paged T
  | 0 => p
  | n + 1 => (Paged.fetchNext fetcher (Paged.runN fetcher p n)).2

/-- The accumulation invariant of §3: the items fetched so far are exactly
`nextOffset` many, and `nextOffset` never exceeds a known `total`. -/
def PagedInv {T : Type} (p : Paged T) : Prop :=
  p.fetchedItems.length = p.nextOffset ∧
    ∀ t, p.total = some t → p.nextOffset ≤ t

/-- A fetcher honouring the `Page` invariant of §3: any page it resolves
with satisfies `offset + items.length ≤ total`. -/
def GoodFetcher {T : Type} (fetcher : Nat → Nat → JsResult (SpotifyPage T)) :
    Prop :=
  ∀ limit offset page, fetcher limit offset = JsResult.resolved page →
    offset + page.items.length ≤ page.total

/-- Scenario of a merely-stale access token: the API accepts the token
`"fresh"` with status 200 and rejects every other token with 401. -/
def apiStale : String → Nat × Nat :=
  fun tok => if tok = "fresh" then (200, 7) else (401, 0)

/-- Refresh environment in which the refresh token is valid: the refresh
endpoint answers 200 with the new access token `"fresh"`. -/
def renvValid : String → Nat × String := fun _ => (200, "fresh")

/-- A connection holding the stale access token and the valid
refresh token. -/
def connStale : Conn := ⟨"stale", "r"⟩

/-- C1. The claim fails on the code: `get` returns the promise of
`this.fetch` without awaiting it, so the 401 rejection bypasses the `catch`
block. On a connection whose access token is stale but whose refresh token
is valid, `get` performs no refresh request, never fires
`onAccessTokenChange`, and rejects with the original 401 — even though
`tryRefresh` alone would succeed, and the awaited variant of the same body
(the behaviour the claim and the `catch` block describe) refreshes once,
fires the callback once and succeeds on the retry. -/
theorem c1_get_401_no_refresh :
    getM apiStale renvValid connStale =
      (JsResult.rejected (JsError.axios 401), connStale,
        [Ev.request "stale" 401]) ∧
    refreshCount (getM apiStale renvValid connStale).2.2 = 0 ∧
    tokenChangeCount (getM apiStale renvValid connStale).2.2 = 0 ∧
    tryRefresh renvValid connStale =
      (JsResult.resolved "fresh", ⟨"fresh", "r"⟩,
        [Ev.refreshRequest "r" 200]) ∧
    getWith true apiStale renvValid connStale =
      (JsResult.resolved ⟨7, 200⟩, ⟨"fresh", "r"⟩,
        [Ev.request "stale" 401, Ev.refreshRequest "r" 200,
         Ev.tokenChange "fresh", Ev.request "fresh" 200]) := by
  decide

/-- C3. The claim fails on the code: `establish` with the stale access token
and the valid refresh token rejects with the 401 of the verification fetch
and never fires `onGettingUserProfile`, because the dead `catch` of `get`
never refreshes; with a valid access token the verification fetch resolves
and `onGettingUserProfile` fires once. -/
theorem c3_establish_stale_token_fails :
    establish apiStale renvValid "stale" "r" =
      (JsResult.rejected (JsError.axios 401), [Ev.request "stale" 401]) ∧
    establish apiStale renvValid "fresh" "r" =
      (JsResult.resolved ⟨"fresh", "r"⟩,
        [Ev.request "fresh" 200, Ev.gotProfile]) := by
  decide

/-- Environment in which every access token is rejected with 401 (the
double-401 scenario of the claim: the retried request would also 401). -/
def apiAlways401 : String → Nat × Nat := fun _ => (401, 0)

/-- Refresh environment answering 200 with access token `"tok2"`. -/
def renv200 : String → Nat × String := fun _ => (200, "tok2")

/-- A connection for the double-401 scenario. -/
def connA : Conn := ⟨"a", "rt"⟩

/-- C7. The claim's bound (never more than one refresh) holds, but its
"exactly one refresh attempt" part fails on the code: in the double-401
scenario `get` fails after zero refresh attempts, not one, because the
un-awaited `this.fetch` promise makes the `catch` unreachable. The awaited
variant of the same body shows the behaviour the claim describes: exactly
one refresh request, then the failing retry, and no second refresh. -/
theorem c7_double_401_zero_refresh :
    getM apiAlways401 renv200 connA =
      (JsResult.rejected (JsError.axios 401), connA, [Ev.request "a" 401]) ∧
    refreshCount (getM apiAlways401 renv200 connA).2.2 = 0 ∧
    getWith true apiAlways401 renv200 connA =
      (JsResult.rejected (JsError.axios 401), ⟨"tok2", "rt"⟩,
        [Ev.request "a" 401, Ev.refreshRequest "rt" 200,
         Ev.tokenChange "tok2", Ev.request "tok2" 401]) ∧
    refreshCount (getWith true apiAlways401 renv200 connA).2.2 = 1 := by
  decide

/-- C10. For the empty ID list the partition loop never runs (its guard
`0 < ids.length` fails immediately, so the `NaN` bucket size is never
consumed): `fetchAudioFeatures` resolves with the empty list and its trace
is empty — zero chunk requests. -/
theorem c10_empty_ids {AF : Type} (benv : String → List String → Nat × List AF)
    (renv : String → Nat × String) (st : Conn) :
    fetchAudioFeatures benv renv st [] =
      (JsResult.resolved [], []) := rfl

set_option maxRecDepth 4000 in
/-- C2, counterexample. For 250 IDs the code's buckets have sizes
84, 84, 82: the loop pushes full `bucketSize`-slices until the input is
exhausted, so the last chunk absorbs the whole shortfall; 82 is neither
`⌊250/3⌋ = 83` nor `⌈250/3⌉ = 84`, and the claimed multiset {84, 83, 83}
is not the one produced. -/
theorem c2_250_ids_sizes :
    (bucketsOf (List.replicate 250 "x")).map List.length = [84, 84, 82] ∧
    ((bucketsOf (List.replicate 250 "x")).map List.length).all
      (fun s => s = 84 || s = 83) = false := by
  decide

/-- C4, counterexample. `reestablish` with the valid refresh token `"r"`
refreshes: the stored access token goes from the empty string to `"fresh"`
(visible in the resolved connection), yet the trace contains no
`onAccessTokenChange` invocation — the callback count is zero, refuting
"every refresh that replaces the stored token invokes the callback". -/
theorem c4_reestablish_no_callback :
    reestablish apiStale renvValid "r" =
      (JsResult.resolved ⟨"fresh", "r"⟩,
        [Ev.refreshRequest "r" 200, Ev.request "fresh" 200, Ev.gotProfile]) ∧
    tokenChangeCount (reestablish apiStale renvValid "r").2 = 0 := by
  decide

/-- C4, amended. No operation of the code ever invokes
`onAccessTokenChange`: `tryRefresh` replaces the stored access token
without firing it, `reestablish`'s initial refresh does not fire it, and
`get`'s only call of it sits in the catch branch that the un-awaited fetch
promise makes unreachable, so its trace carries no `tokenChange` event
either. -/
theorem c4_no_token_change_callback {P : Type} (env : String → Nat × P)
    (renv : String → Nat × String) (st : Conn) (rt : String) :
    tokenChangeCount (tryRefresh renv st).2.2 = 0 ∧
    tokenChangeCount (getM env renv st).2.2 = 0 ∧
    tokenChangeCount (reestablish env renv rt).2 = 0 := by
  refine ⟨?_, ?_, ?_⟩
  · simp only [tryRefresh]
    split_ifs <;> rfl
  · simp only [getM, getWith, fetchM, if_pos rfl]
    split_ifs <;> rfl
  · simp only [reestablish, tryRefresh, fetchUserProfile, getM, getWith,
      fetchM, if_pos rfl]
    by_cases h1 : axiosOk (renv rt).1 <;>
      by_cases h2 : (renv rt).1 = 200 <;>
      by_cases h3 : axiosOk (env (renv rt).2).1 <;>
      by_cases h4 : (env (renv rt).2).1 = 200 <;>
      simp +decide [h1, h2, h3, h4, tokenChangeCount, List.countP_append,
        List.countP_cons]

/-- C8. `tryRefresh` issues exactly one request to the refresh endpoint
carrying the connection's refresh token as query parameter; whenever the
endpoint's status is not 200 it rejects (the non-2xx axios rejection or the
`throw response` of line 133) and leaves the state untouched; on 200 it
replaces the stored access token with the returned `access_token` and
resolves with that token; and the `readonly` refresh-token field survives
both `tryRefresh` and `get` unchanged. -/
theorem c8_tryRefresh_spec (renv : String → Nat × String) (st : Conn) :
    (tryRefresh renv st).2.2 =
      [Ev.refreshRequest st.refreshToken (renv st.refreshToken).1] ∧
    ((renv st.refreshToken).1 = 200 →
      tryRefresh renv st =
        (JsResult.resolved (renv st.refreshToken).2,
         ⟨(renv st.refreshToken).2, st.refreshToken⟩,
         [Ev.refreshRequest st.refreshToken 200])) ∧
    ((renv st.refreshToken).1 ≠ 200 →
      (tryRefresh renv st).1.isRejected = true ∧
      (tryRefresh renv st).2.1 = st) ∧
    (tryRefresh renv st).2.1.refreshToken = st.refreshToken ∧
    (∀ (T : Type) (env : String → Nat × T),
      (getM env renv st).2.1.refreshToken = st.refreshToken) := by
  simp only [tryRefresh, getM, getWith, fetchM, if_pos rfl]
  by_cases h1 : axiosOk (renv st.refreshToken).1 <;>
    by_cases h2 : (renv st.refreshToken).1 = 200 <;>
    simp +decide [h1, h2, JsResult.isRejected]

/-- C8, witness: the specification of `tryRefresh` applied to the concrete
valid refresh environment, discharging the status-200 side condition. -/
theorem c8_witness :
    tryRefresh renvValid connStale =
      (JsResult.resolved "fresh", ⟨"fresh", "r"⟩,
        [Ev.refreshRequest "r" 200]) :=
  (c8_tryRefresh_spec renvValid connStale).2.1 rfl

theorem ceilDivNat_zero (b : Nat) : ceilDivNat 0 b = 0 := by
  unfold ceilDivNat
  cases b with
  | zero => rfl
  | succ b => exact Nat.div_eq_of_lt (by omega)

theorem ceilDivNat_pos {a b : Nat} (ha : 0 < a) (hb : 0 < b) :
    0 < ceilDivNat a b := by
  unfold ceilDivNat
  rw [Nat.lt_iff_add_one_le, Nat.zero_add, Nat.le_div_iff_mul_le hb]
  omega

theorem le_mul_ceilDivNat {b : Nat} (a : Nat) (hb : 0 < b) :
    a ≤ ceilDivNat a b * b := by
  unfold ceilDivNat
  have hdm := Nat.div_add_mod (a + b - 1) b
  have hlt := Nat.mod_lt (a + b - 1) hb
  rw [Nat.mul_comm]
  omega

theorem ceilDivNat_le {a b c : Nat} (hb : 0 < b) (h : a ≤ c * b) :
    ceilDivNat a b ≤ c := by
  unfold ceilDivNat
  rw [Nat.div_le_iff_le_mul_add_pred hb, Nat.mul_comm b c]
  omega

theorem le_ceilDivNat {a b c : Nat} (hb : 0 < b) (h : c * b < a + b) :
    c ≤ ceilDivNat a b := by
  unfold ceilDivNat
  rw [Nat.le_div_iff_mul_le hb]
  omega

theorem ceilDivNat_step (n b : Nat) (hb : 0 < b) (hn : 0 < n) :
    ceilDivNat n b = ceilDivNat (n - b) b + 1 := by
  by_cases h : b ≤ n
  · unfold ceilDivNat
    rw [← Nat.add_div_right (n - b + b - 1) hb]
    congr 1
    omega
  · have h0 : n - b = 0 := by omega
    rw [h0]
    unfold ceilDivNat
    have e1 : (0 + b - 1) / b = 0 := Nat.div_eq_of_lt (by omega)
    have e2 : (n + b - 1) / b = 1 :=
      Nat.div_eq_of_lt_le (by omega) (by omega)
    rw [e1, e2]

/-- The `bucketSize` is at least 1 for every non-empty ID list. -/
theorem bucketSize_pos {n : Nat} (hn : 0 < n) : 0 < bucketSizeOf n :=
  ceilDivNat_pos hn (ceilDivNat_pos hn (by omega))

/-- The number of `bucketSize`-slices of `n` elements is exactly
`⌈n/100⌉`: the near-equal bucket size never changes the chunk count. -/
theorem ceilDivNat_bucketSize (n : Nat) (hn : 0 < n) :
    ceilDivNat n (bucketSizeOf n) = ceilDivNat n 100 := by
  have h100 : (0:Nat) < 100 := by omega
  have hm : 0 < ceilDivNat n 100 := ceilDivNat_pos hn h100
  have hb : 0 < bucketSizeOf n := bucketSize_pos hn
  apply Nat.le_antisymm
  · exact ceilDivNat_le hb
      (by rw [Nat.mul_comm]; exact le_mul_ceilDivNat n hm)
  · apply le_ceilDivNat hb
    have hble : bucketSizeOf n ≤ 100 := by
      apply ceilDivNat_le hm
      rw [Nat.mul_comm]
      exact le_mul_ceilDivNat n h100
    have hlow : 100 * (ceilDivNat n 100 - 1) < n := by
      by_contra hcon
      have : ceilDivNat n 100 ≤ ceilDivNat n 100 - 1 :=
        ceilDivNat_le h100 (by rw [Nat.mul_comm]; omega)
      omega
    calc ceilDivNat n 100 * bucketSizeOf n
        = (ceilDivNat n 100 - 1) * bucketSizeOf n + bucketSizeOf n := by
          rw [← Nat.succ_mul, Nat.succ_eq_add_one]
          congr 1
          omega
      _ ≤ (ceilDivNat n 100 - 1) * 100 + bucketSizeOf n := by
          have := Nat.mul_le_mul_left (ceilDivNat n 100 - 1) hble
          omega
      _ < n + bucketSizeOf n := by
          rw [Nat.mul_comm] at hlow ⊢
          omega

theorem chunkByAux_nil {α : Type} (fuel b : Nat) :
    chunkByAux fuel b ([] : List α) = [] := by
  cases fuel <;> rfl

theorem chunkByAux_flatten {α : Type} :
    ∀ (fuel b : Nat) (l : List α), l.length ≤ fuel → 0 < b →
      (chunkByAux fuel b l).flatten = l
  | 0, b, l, hf, _ => by
    have hl : l = [] := List.eq_nil_of_length_eq_zero (Nat.le_zero.mp hf)
    subst hl; rfl
  | _ + 1, _, [], _, _ => rfl
  | fuel + 1, b, x :: xs, hf, hb => by
    have hb0 : ¬ b = 0 := by omega
    simp only [chunkByAux, if_neg hb0, List.flatten_cons]
    rw [chunkByAux_flatten fuel b ((x :: xs).drop b)
      (by simp only [List.length_drop, List.length_cons] at hf ⊢; omega) hb]
    exact List.take_append_drop b (x :: xs)

theorem chunkByAux_length {α : Type} :
    ∀ (fuel b : Nat) (l : List α), l.length ≤ fuel → 0 < b →
      (chunkByAux fuel b l).length = ceilDivNat l.length b
  | 0, b, l, hf, _ => by
    have hl : l = [] := List.eq_nil_of_length_eq_zero (Nat.le_zero.mp hf)
    subst hl; simp [chunkByAux_nil, ceilDivNat_zero]
  | _ + 1, b, [], _, _ => by
    simp [chunkByAux_nil, ceilDivNat_zero]
  | fuel + 1, b, x :: xs, hf, hb => by
    have hb0 : ¬ b = 0 := by omega
    simp only [chunkByAux, if_neg hb0, List.length_cons]
    rw [chunkByAux_length fuel b ((x :: xs).drop b)
      (by simp only [List.length_drop, List.length_cons] at hf ⊢; omega) hb]
    simp only [List.length_drop, List.length_cons]
    rw [ceilDivNat_step (xs.length + 1) b hb (by omega)]

theorem chunkByAux_map_length {α : Type} :
    ∀ (fuel b : Nat) (l : List α), l.length ≤ fuel → 0 < b →
      (chunkByAux fuel b l).map List.length =
        (List.range (ceilDivNat l.length b)).map
          (fun i => min b (l.length - b * i))
  | 0, b, l, hf, _ => by
    have hl : l = [] := List.eq_nil_of_length_eq_zero (Nat.le_zero.mp hf)
    subst hl; simp [chunkByAux_nil, ceilDivNat_zero]
  | _ + 1, b, [], _, _ => by
    simp [chunkByAux_nil, ceilDivNat_zero]
  | fuel + 1, b, x :: xs, hf, hb => by
    have hb0 : ¬ b = 0 := by omega
    simp only [chunkByAux, if_neg hb0, List.map_cons]
    rw [chunkByAux_map_length fuel b ((x :: xs).drop b)
      (by simp only [List.length_drop, List.length_cons] at hf ⊢; omega) hb]
    simp only [List.length_drop]
    rw [ceilDivNat_step (x :: xs).length b hb (by simp),
      List.range_succ_eq_map, List.map_cons, List.map_map]
    refine List.cons_eq_cons.mpr ⟨?_, ?_⟩ <;>
      first
      | (simp only [List.length_take]; omega)
      | (apply List.map_congr_left;
         intro i _;
         simp only [Function.comp_apply];
         rw [Nat.mul_succ];
         omega)

/-- C2, amended. For a non-empty ID list of length `n`, `fetchAudioFeatures`
partitions the IDs into exactly `chunkCount = ⌈n/100⌉` contiguous chunks
that concatenate back to the input; the i-th chunk (0-based) has size
`min bucketSize (n − bucketSize·i)` for `bucketSize = ⌈n/⌈n/100⌉⌉` — i.e.
every chunk except the last has size exactly `bucketSize` and the last
chunk absorbs the whole shortfall `n − bucketSize·(chunkCount−1)`, which
may drop below `⌊n/chunkCount⌋` (250 IDs give sizes 84, 84, 82, not the
claimed 84, 83, 83). -/
theorem c2_partition_amended (ids : List String) (h : ids ≠ []) :
    (bucketsOf ids).length = ceilDivNat ids.length 100 ∧
    (bucketsOf ids).flatten = ids ∧
    (bucketsOf ids).map List.length =
      (List.range (ceilDivNat ids.length 100)).map
        (fun i => min (bucketSizeOf ids.length)
          (ids.length - bucketSizeOf ids.length * i)) := by
  have hn : 0 < ids.length := List.length_pos.mpr h
  have hb : 0 < bucketSizeOf ids.length := bucketSize_pos hn
  refine ⟨?_, ?_, ?_⟩
  · rw [bucketsOf, chunkBy,
      chunkByAux_length ids.length (bucketSizeOf ids.length) ids
        (Nat.le_refl _) hb,
      ceilDivNat_bucketSize ids.length hn]
  · exact chunkByAux_flatten ids.length (bucketSizeOf ids.length) ids
      (Nat.le_refl _) hb
  · rw [bucketsOf, chunkBy,
      chunkByAux_map_length ids.length (bucketSizeOf ids.length) ids
        (Nat.le_refl _) hb,
      ceilDivNat_bucketSize ids.length hn]

/-- C2, witness: the amended partition law applied to a concrete non-empty
list of five IDs. -/
theorem c2_witness :
    (List.replicate 5 "x" : List String) ≠ [] ∧
    ((bucketsOf (List.replicate 5 "x")).length =
        ceilDivNat (List.replicate 5 "x").length 100 ∧
      (bucketsOf (List.replicate 5 "x")).flatten = List.replicate 5 "x" ∧
      (bucketsOf (List.replicate 5 "x")).map List.length =
        (List.range (ceilDivNat (List.replicate 5 "x").length 100)).map
          (fun i => min (bucketSizeOf (List.replicate 5 "x").length)
            ((List.replicate 5 "x").length -
              bucketSizeOf (List.replicate 5 "x").length * i))) :=
  ⟨by decide, c2_partition_amended (List.replicate 5 "x") (by decide)⟩

theorem JsResult.map_isRejected {α β : Type} (f : α → β) (r : JsResult α) :
    (JsResult.map f r).isRejected = r.isRejected := by
  cases r <;> rfl

/-- A bucket request whose HTTP status is not 200 yields a rejected bucket
promise: a non-2xx status is an axios rejection, and a 2xx status other
than 200 is thrown by line 203. -/
theorem fetchAudioFeaturesOfBucket_rejected {AF : Type}
    (benv : String → List String → Nat × List AF)
    (renv : String → Nat × String) (st : Conn) (ids : List String)
    (h : (benv st.accessToken ids).1 ≠ 200) :
    (fetchAudioFeaturesOfBucket benv renv st ids).1.isRejected = true := by
  simp only [fetchAudioFeaturesOfBucket, getM, getWith, fetchM, if_pos rfl]
  by_cases hok : axiosOk (benv st.accessToken ids).1 <;>
    simp [hok, h, JsResult.isRejected]

theorem promiseAll_isRejected {α : Type} :
    ∀ (ps : List (JsResult α)), (∃ p ∈ ps, p.isRejected = true) →
      (promiseAll ps).isRejected = true
  | [], h => by simp at h
  | p :: ps, h => by
    rcases h with ⟨q, hq, hrej⟩
    rcases List.mem_cons.mp hq with hq | hq
    · subst hq
      cases q with
      | resolved a => simp [JsResult.isRejected] at hrej
      | rejected e => simp [promiseAll, promiseAllCons, JsResult.isRejected]
    · have hrec := promiseAll_isRejected ps ⟨q, hq, hrej⟩
      simp only [promiseAll]
      cases p with
      | resolved a =>
        cases hall : promiseAll ps with
        | resolved as =>
          rw [hall] at hrec; simp [JsResult.isRejected] at hrec
        | rejected e => simp [promiseAllCons, JsResult.isRejected]
      | rejected e => simp [promiseAllCons, JsResult.isRejected]

/-- C5. If any one chunk of the partitioned ID list gets a non-200 status,
the whole `fetchAudioFeatures` rejects — `Promise.all` rejects as soon as
one bucket promise rejects, so no partial audio-feature list is ever
returned to the caller. -/
theorem c5_chunk_failure_rejects {AF : Type}
    (benv : String → List String → Nat × List AF)
    (renv : String → Nat × String) (st : Conn) (ids : List String)
    (h : ∃ c ∈ bucketsOf ids, (benv st.accessToken c).1 ≠ 200) :
    (fetchAudioFeatures benv renv st ids).1.isRejected = true := by
  rcases h with ⟨c, hc, hne⟩
  simp only [fetchAudioFeatures]
  rw [JsResult.map_isRejected]
  apply promiseAll_isRejected
  refine ⟨(fetchAudioFeaturesOfBucket benv renv st c).1, ?_, ?_⟩
  · rw [List.map_map]
    exact List.mem_map_of_mem _ hc
  · exact fetchAudioFeaturesOfBucket_rejected benv renv st c hne

/-- C5, witness: with a remote answering 500 to every audio-features chunk,
the single chunk of the one-element ID list fails and so does the whole
bulk call. -/
theorem c5_witness :
    (∃ c ∈ bucketsOf ["a"],
      (((fun _ _ => (500, ([] : List Nat))) : String → List String → Nat × List Nat)
        (Conn.mk "t" "r").accessToken c).1 ≠ 200) ∧
    (fetchAudioFeatures (fun _ _ => (500, ([] : List Nat))) renvValid
      (Conn.mk "t" "r") ["a"]).1.isRejected = true :=
  ⟨by decide,
   c5_chunk_failure_rejects (fun _ _ => (500, [])) renvValid
     (Conn.mk "t" "r") ["a"] (by decide)⟩

theorem promiseAll_map_resolved {α β : Type} (g : β → α) :
    ∀ (l : List β),
      promiseAll (l.map (fun c => JsResult.resolved (g c))) =
        JsResult.resolved (l.map g)
  | [] => rfl
  | c :: l => by
    simp only [List.map_cons, promiseAll, promiseAll_map_resolved g l,
      promiseAllCons]

/-- A bucket request answered 200 resolves with the returned
`audio_features` payload. -/
theorem fetchAudioFeaturesOfBucket_ok {AF : Type}
    (benv : String → List String → Nat × List AF)
    (renv : String → Nat × String) (st : Conn) (ids : List String)
    (d : List AF) (h : benv st.accessToken ids = (200, d)) :
    (fetchAudioFeaturesOfBucket benv renv st ids).1 = JsResult.resolved d := by
  simp only [fetchAudioFeaturesOfBucket, getM, getWith, fetchM, if_pos rfl, h]
  simp +decide

/-- The buckets concatenate back to the original ID list. -/
theorem bucketsOf_flatten (ids : List String) :
    (bucketsOf ids).flatten = ids := by
  cases ids with
  | nil => rfl
  | cons x xs =>
    exact chunkByAux_flatten (x :: xs).length (bucketSizeOf (x :: xs).length)
      (x :: xs) (Nat.le_refl _) (bucketSize_pos (by simp))

theorem range_map_getD {β : Type} (d : β) :
    ∀ (l : List β),
      (List.range l.length).map (fun i => (l.get? i).getD d) = l
  | [] => rfl
  | a :: t => by
    simp only [List.length_cons, List.range_succ_eq_map, List.map_cons,
      List.map_map]
    refine List.cons_eq_cons.mpr ⟨rfl, ?_⟩
    conv_rhs => rw [← range_map_getD d t]
    apply List.map_congr_left
    intro i _
    simp [Function.comp]

theorem find?_settleOrder {γ : Type} :
    ∀ (sched : List Nat) (rs : List γ) (i : Nat), i ∈ sched →
      i < rs.length →
      (settleOrder sched rs).find? (fun x => x.1 == i) =
        (rs.get? i).map (fun r => (i, r))
  | [], _, i, hmem, _ => by simp at hmem
  | j :: sched, rs, i, hmem, hlen => by
    simp only [settleOrder, List.filterMap_cons]
    cases hj : rs.get? j with
    | none =>
      have hij : i ≠ j := by
        intro hcon
        subst hcon
        rw [List.get?_eq_getElem?, List.getElem?_eq_getElem hlen] at hj
        cases hj
      have hmem' : i ∈ sched := by
        rcases List.mem_cons.mp hmem with hcon | hm
        · exact absurd hcon hij
        · exact hm
      simp only [Option.map_none']
      exact find?_settleOrder sched rs i hmem' hlen
    | some r =>
      simp only [Option.map_some', List.find?_cons]
      by_cases hij : j = i
      · subst hij
        simp only [beq_self_eq_true]
        rw [hj]
        rfl
      · have hmem' : i ∈ sched := by
          rcases List.mem_cons.mp hmem with hcon | hm
          · exact absurd hcon.symm hij
          · exact hm
        have : ((j, r).1 == i) = false := by
          simp [hij]
        rw [this]
        exact find?_settleOrder sched rs i hmem' hlen

/-- Reassembling the settled chunk results by original index recovers the
index-ordered flattening, whatever the completion order was. -/
theorem assembleByIndex_settleOrder {β : Type} (sched : List Nat)
    (rs : List (List β)) (h : ∀ i, i < rs.length → i ∈ sched) :
    assembleByIndex rs.length (settleOrder sched rs) = rs.flatten := by
  unfold assembleByIndex
  have hmap : (List.range rs.length).map (fun i =>
      (((settleOrder sched rs).find? (fun x => x.1 == i)).map
        (fun x => x.2)).getD []) = rs := by
    conv_rhs => rw [← range_map_getD [] rs]
    apply List.map_congr_left
    intro i hi
    have hi' : i < rs.length := List.mem_range.mp hi
    rw [find?_settleOrder sched rs i (h i hi') hi', Option.map_map]
    simp [Function.comp]
  rw [hmap]

/-- C6. When every chunk request succeeds and each chunk's response lists
the features of its IDs in chunk order (`benv` answers 200 with
`c.map f`), `fetchAudioFeatures` resolves with exactly `ids.map f`: the
per-chunk arrays are concatenated by original chunk index, so the result
follows the input ID order; and reassembling the settled chunk results of
any completion order `sched` (any permutation of the chunk indices) by
original index yields the same list — the concurrent completion order
never affects the final ordering. -/
theorem c6_concat_in_chunk_order {AF : Type}
    (benv : String → List String → Nat × List AF)
    (renv : String → Nat × String) (st : Conn) (ids : List String)
    (f : String → AF) (sched : List Nat)
    (hok : ∀ c ∈ bucketsOf ids, benv st.accessToken c = (200, c.map f))
    (hsched : sched.Perm (List.range (bucketsOf ids).length)) :
    (fetchAudioFeatures benv renv st ids).1 =
      JsResult.resolved (ids.map f) ∧
    assembleByIndex (bucketsOf ids).length
      (settleOrder sched
        ((bucketsOf ids).map (fun c => (benv st.accessToken c).2))) =
      ids.map f := by
  have hdata : (bucketsOf ids).map (fun c => (benv st.accessToken c).2) =
      (bucketsOf ids).map (fun c => c.map f) := by
    apply List.map_congr_left
    intro c hc
    rw [hok c hc]
  have hflat : ((bucketsOf ids).map (fun c => c.map f)).flatten =
      ids.map f := by
    rw [← List.map_flatten, bucketsOf_flatten]
  constructor
  · simp only [fetchAudioFeatures]
    have hres : ((bucketsOf ids).map (fun bucket =>
        fetchAudioFeaturesOfBucket benv renv st bucket)).map (fun r => r.1) =
        (bucketsOf ids).map (fun c => JsResult.resolved (c.map f)) := by
      rw [List.map_map]
      apply List.map_congr_left
      intro c hc
      exact fetchAudioFeaturesOfBucket_ok benv renv st c (c.map f) (hok c hc)
    rw [hres, promiseAll_map_resolved, JsResult.map, hflat]
  · rw [hdata]
    have hlen : (bucketsOf ids).length =
        ((bucketsOf ids).map (fun c => c.map f)).length := by
      rw [List.length_map]
    rw [hlen, assembleByIndex_settleOrder, hflat]
    intro i hi
    rw [List.length_map] at hi
    exact (hsched.mem_iff).mpr (List.mem_range.mpr hi)

/-- C6, witness: three IDs in one chunk, an echoing environment, and the
one-element completion schedule. -/
theorem c6_witness :
    (∀ c ∈ bucketsOf ["a", "b", "c"],
      (((fun _ c => (200, c)) : String → List String → Nat × List String)
        (Conn.mk "t" "r").accessToken c) = (200, c.map id)) ∧
    ([0].Perm (List.range (bucketsOf ["a", "b", "c"]).length)) ∧
    ((fetchAudioFeatures (fun _ c => (200, c)) renvValid (Conn.mk "t" "r")
        ["a", "b", "c"]).1 =
      JsResult.resolved (["a", "b", "c"].map id) ∧
    assembleByIndex (bucketsOf ["a", "b", "c"]).length
      (settleOrder [0]
        ((bucketsOf ["a", "b", "c"]).map
          (fun c => ((fun _ c => (200, c)) : String → List String → Nat × List String)
            (Conn.mk "t" "r").accessToken c |>.2))) =
      ["a", "b", "c"].map id) :=
  ⟨by decide, by decide,
   c6_concat_in_chunk_order (fun _ c => (200, c)) renvValid (Conn.mk "t" "r")
     ["a", "b", "c"] id [0] (by decide) (by decide)⟩

/-- C9 (the `Paged` source file is not among the provided sources; the
container is modelled from spec §4.3/§3). On a fresh instance, after any
number of `fetchNext` calls against a fetcher whose pages honour
`offset + items.length ≤ total`, the accumulation invariant holds:
`fetchedItems.length = nextOffset`, and `nextOffset ≤ total` once `total`
is known; moreover any `fetchNext` that fails — by the exhaustion guard or
by a rejected page request — leaves the instance's state entirely
unchanged. -/
theorem c9_paged_invariant {T : Type}
    (fetcher : Nat → Nat → JsResult (SpotifyPage T))
    (hf : GoodFetcher fetcher) (pageSize n : Nat) :
    PagedInv (Paged.runN fetcher (Paged.create pageSize) n) ∧
    ∀ (p : Paged T), (Paged.fetchNext fetcher p).1.isRejected = true →
      (Paged.fetchNext fetcher p).2 = p := by
  constructor
  · induction n with
    | zero =>
      exact ⟨rfl, by intro t ht; cases ht⟩
    | succ n ih =>
      simp only [Paged.runN]
      rcases ih with ⟨hlen, htot⟩
      set q := Paged.runN fetcher (Paged.create pageSize) n with hq
      simp only [Paged.fetchNext]
      by_cases hex : q.total = some q.nextOffset
      · simp only [if_pos hex]
        exact ⟨hlen, htot⟩
      · simp only [if_neg hex]
        cases hfetch : fetcher q.pageSize q.nextOffset with
        | rejected e => exact ⟨hlen, htot⟩
        | resolved page =>
          refine ⟨?_, ?_⟩
          · simp [List.length_append, hlen]
          · intro t ht
            simp only [Option.some.injEq] at ht
            subst ht
            exact hf q.pageSize q.nextOffset page hfetch
  · intro p hrej
    simp only [Paged.fetchNext] at hrej ⊢
    by_cases hex : p.total = some p.nextOffset
    · simp [if_pos hex]
    · simp only [if_neg hex] at hrej ⊢
      cases hfetch : fetcher p.pageSize p.nextOffset with
      | rejected e => simp [hfetch]
      | resolved page =>
        rw [hfetch] at hrej
        simp [JsResult.isRejected] at hrej

/-- C9, witness: a fetcher resolving every request at offset `o` with one
item and total `o + 1` honours the page invariant; the invariant holds
after three calls on a fresh instance with page size 2. -/
theorem c9_witness :
    GoodFetcher (fun _ o => JsResult.resolved (⟨[o], o + 1⟩ : SpotifyPage Nat)) ∧
    PagedInv (Paged.runN (fun _ o => JsResult.resolved (⟨[o], o + 1⟩ : SpotifyPage Nat))
      (Paged.create 2) 3) := by
  have hgf : GoodFetcher (fun _ o => JsResult.resolved (⟨[o], o + 1⟩ : SpotifyPage Nat)) := by
    intro limit offset page h
    cases h
    simp
  exact ⟨hgf,
    (c9_paged_invariant (fun _ o => JsResult.resolved ⟨[o], o + 1⟩) hgf 2 3).1⟩
